import Mathlib

/-!
Shallow embedding of the clonequest turn engine (`src/game.rs`).

Identities: the source wraps indices in newtypes `PlayerId`, `PlanetId`,
`FleetId` around `usize`; here ids are plain `ℕ` indices into the
corresponding lists.  All `usize` arithmetic that cannot under/overflow in
any reachable state is modelled as plain `ℕ` arithmetic; the two decrements
that *can* underflow in reachable states (a fleet's `turns_to_arrival -= 1`
after a same-planet order, and `fleet.ships -= 1` on a zero-ship fleet in
combat) are modelled with the 64-bit wrap-around semantics of a release
build (`wrapDec`); a debug build would panic at the same spot, so reaching
the wrap case is a defect either way.
-/

/-- Wrap-around decrement on 64-bit unsigned values, modelling Rust `x -= 1`
on `usize` where the operand may be zero. -/
def wrapDec (n : ℕ) : ℕ := (n + (2 ^ 64 - 1)) % 2 ^ 64

/-- Player record (`game.rs` lines 15-18). -/
structure Player where
  name : String
deriving DecidableEq, Inhabited

/-- In-flight fleet (`game.rs` lines 19-26). -/
structure Fleet where
  ships : ℕ
  strength : ℕ
  turns_to_arrival : ℕ
  destination : ℕ
  owner : ℕ
deriving DecidableEq, Inhabited

/-- Planet (`game.rs` lines 28-36). -/
structure Planet where
  name : String
  ships : ℕ
  strength : ℕ
  production : ℕ
  pos : ℕ × ℕ
  owner : Option ℕ
deriving DecidableEq, Inhabited

/-- Queued movement order (`game.rs` lines 38-43). -/
structure SendShipsCommand where
  source_planet_id : ℕ
  destination_planet_id : ℕ
  count : ℕ
deriving DecidableEq, Inhabited

/-- Travel time between two planets (`game.rs` `distance`, lines 45-52).
The source computes `ceil(sqrt(dx*dx + dy*dy) * 0.5)` in 32-bit floating
point; here the exact real-valued ceiling is used: the least `k` with
`(2*k)^2 ≥ dx^2 + dy^2`.  No theorem below depends on the numeric value
returned here. -/
def distance (a b : Planet) : ℕ :=
  let dx := max a.pos.1 b.pos.1 - min a.pos.1 b.pos.1
  let dy := max a.pos.2 b.pos.2 - min a.pos.2 b.pos.2
  let s := dx * dx + dy * dy
  if s = 0 then 0 else Nat.sqrt (s - 1) / 2 + 1

/-- The fixed alphabet of planet display names (`game.rs` line 53). -/
def PLANET_NAMES : List Char := "ABCDEFGHIJKLMNOPQRSTUVWXYZ".toList

/-- Game state (`game.rs` lines 55-63). -/
structure Game where
  planets : List Planet
  players : List Player
  fleets : List Fleet
  queued_commands : List (ℕ × SendShipsCommand)
  w : ℕ
  h : ℕ
deriving DecidableEq, Inhabited

/-- Order-submission errors (`game.rs` lines 65-70). -/
inductive CouldNotSend where
  | NoSuchPlanet
  | NotYourPlanet
  | NotEnoughShips
deriving DecidableEq

/-- Turn events (`game.rs` lines 77-82); each carries the snapshot the source
clones into it. -/
inductive Message where
  | AttackFailed (f : Fleet)
  | AttackSucceeded (f : Fleet)
  | ReinforcementsArrived (f : Fleet)
  | PlayerEliminated (p : Player)
deriving DecidableEq

/-- Outcome of one resolved combat: whether the attacker won, the fleet's and
the planet's final ship counts written back by the loop, and the index of the
first random draw not consumed. -/
structure CombatResult where
  attackerWon : Bool
  fleetShips : ℕ
  planetShips : ℕ
  next : ℕ
deriving DecidableEq

/-- Combat resolution loop (`game.rs` lines 111-132).  `dstr` and `fstr` are
the defending planet's and the attacking fleet's strength, `fs` and `ds` the
fleet's and the planet's current ship counts.  `rolls j` supplies the round-`j`
pair of random draws, one for the defender and one for the attacker; a draw
`d` against strength `s` succeeds when `d % 100 < s`, which realises
`thread_rng().gen_bool(s as f64 / 100.0)` for uniform draws (never for
`s = 0`, always for `s = 100`).  `fuel` bounds how many rounds are modelled;
`none` means the loop has not resolved within `fuel` rounds.  The defender
fires first: on a hit the fleet loses a ship (`wrapDec`: the source does not
check the count is positive first) and the attack fails if the count is now
zero.  Then the attacker fires: on a hit it wins if the planet is already at
zero ships, otherwise the planet loses one ship (that subtraction is guarded
by the zero test, so plain subtraction is faithful). -/
def combatLoop (dstr fstr : ℕ) (rolls : ℕ → ℕ × ℕ) :
    ℕ → ℕ → ℕ → ℕ → Option CombatResult
  | _, 0, _, _ => none
  | i, fuel + 1, fs, ds =>
    let fs1 := if (rolls i).1 % 100 < dstr then wrapDec fs else fs
    if (rolls i).1 % 100 < dstr ∧ fs1 = 0 then
      some ⟨false, fs1, ds, i + 1⟩
    else if (rolls i).2 % 100 < fstr then
      if ds = 0 then
        some ⟨true, fs1, fs1, i + 1⟩
      else
        combatLoop dstr fstr rolls (i + 1) fuel fs1 (ds - 1)
    else
      combatLoop dstr fstr rolls (i + 1) fuel fs1 ds

/-- One fleet's share of the advancement/arrival pass of `end_turn`
(`game.rs` lines 103-135): decrement `turns_to_arrival` (wrap-around: a fleet
materialised from a same-planet order arrives with the counter already at
zero), then on arrival either reinforce a friendly destination or run the
combat loop against a non-friendly one, writing the outcome back into the
planet list and the fleet.  Returns the mutated fleet, the planet list, the
emitted events, and the new random-draw cursor; `none` when the combat loop
did not resolve within `fuel` rounds. -/
def processFleet (rolls : ℕ → ℕ × ℕ) (fuel : ℕ) (cursor : ℕ)
    (planets : List Planet) (f : Fleet) :
    Option (Fleet × List Planet × List Message × ℕ) :=
  let f1 : Fleet := { f with turns_to_arrival := wrapDec f.turns_to_arrival }
  if f1.turns_to_arrival = 0 then
    let dest := planets.getD f1.destination default
    if some f1.owner = dest.owner then
      some (f1,
            planets.set f1.destination { dest with ships := dest.ships + f1.ships },
            [Message.ReinforcementsArrived f1],
            cursor)
    else
      match combatLoop dest.strength f1.strength rolls cursor fuel f1.ships dest.ships with
      | none => none
      | some r =>
        let f2 : Fleet := { f1 with ships := r.fleetShips }
        let dest1 : Planet :=
          if r.attackerWon then
            { dest with owner := some f1.owner, ships := r.planetShips }
          else
            { dest with ships := r.planetShips }
        let msg := if r.attackerWon then Message.AttackSucceeded f2 else Message.AttackFailed f2
        some (f2, planets.set f1.destination dest1, [msg], r.next)
  else
    some (f1, planets, [], cursor)

/-- Sequential pass over the fleet vector (`for fleet in self._fleets.iter_mut()`,
`game.rs` line 103), threading the planet list, the event list and the
random-draw cursor through the per-fleet step. -/
def processFleets (rolls : ℕ → ℕ × ℕ) (fuel : ℕ) :
    List Fleet → ℕ → List Planet → Option (List Fleet × List Planet × List Message × ℕ)
  | [], cursor, planets => some ([], planets, [], cursor)
  | f :: rest, cursor, planets =>
    (processFleet rolls fuel cursor planets f).bind fun res =>
      (processFleets rolls fuel rest res.2.2.2 res.2.1).bind fun res2 =>
        some (res.1 :: res2.1, res2.2.1, res.2.2.1 ++ res2.2.2.1, res2.2.2.2)

/-- Materialisation of the queued orders (`game.rs` lines 91-102): drain the
queue in order; for each order subtract its count from the source planet
(validated at submission never to exceed the available count, so plain `ℕ`
subtraction is faithful on reachable states), then build the fleet from the
post-subtraction source planet: its strength, and the travel time from its
position to the destination's. -/
def materialize (planets : List Planet) :
    List (ℕ × SendShipsCommand) → List Planet × List Fleet
  | [] => (planets, [])
  | (player, command) :: rest =>
    let src0 := planets.getD command.source_planet_id default
    let planets1 :=
      planets.set command.source_planet_id { src0 with ships := src0.ships - command.count }
    let source_planet := planets1.getD command.source_planet_id default
    let destination_planet := planets1.getD command.destination_planet_id default
    let fl : Fleet :=
      { ships := command.count,
        strength := source_planet.strength,
        turns_to_arrival := distance source_planet destination_planet,
        destination := command.destination_planet_id,
        owner := player }
    let res := materialize planets1 rest
    (res.1, fl :: res.2)

/-- Remaining players over explicit planet and fleet collections: owners of at
least one planet united with owners of at least one fleet (`game.rs`
`remaining_players`, lines 228-232; the source returns a `HashSet`). -/
def remainingPlayersOf (planets : List Planet) (fleets : List Fleet) : Finset ℕ :=
  (planets.filterMap Planet.owner).toFinset ∪ (fleets.map Fleet.owner).toFinset

/-- The facade query `Game::remaining_players`. -/
def Game.remaining_players (g : Game) : Finset ℕ :=
  remainingPlayersOf g.planets g.fleets

/-- One full turn (`Game::end_turn`, `game.rs` lines 85-148): remember the
remaining players, apply production to owned planets, materialise the queued
orders into fleets, run the advancement/arrival pass over old and new fleets,
filter the survivors (positive travel time and positive ships), and emit one
`PlayerEliminated` per player remaining before but not after.  The source
computes the after-set *while the fleet vector is drained* (`_fleets` is
empty between the `drain` and the final reassignment), so the after-set sees
planets only; this embedding reproduces that.  The eliminated set is emitted
in ascending id order by scanning the player indices (the source iterates a
`HashSet` difference in unspecified order; an eliminated owner id outside the
player vector would be an indexing panic in the source and is unreachable).
`rolls` and `fuel` model the ambient `thread_rng` draws and bound the combat
rounds; `none` means some combat did not resolve within `fuel` rounds. -/
def Game.end_turn (g : Game) (rolls : ℕ → ℕ × ℕ) (fuel : ℕ) :
    Option (List Message × Game) :=
  let alive_before := g.remaining_players
  let planets1 := g.planets.map fun p =>
    if p.owner ≠ none then { p with ships := p.ships + p.production } else p
  let mat := materialize planets1 g.queued_commands
  let allFleets := g.fleets ++ mat.2
  match processFleets rolls fuel allFleets 0 mat.1 with
  | none => none
  | some (fleets1, planets2, msgs, _) =>
    let new_fleets := fleets1.filter fun f =>
      decide (0 < f.turns_to_arrival ∧ 0 < f.ships)
    let alive_after := remainingPlayersOf planets2 []
    let elimMsgs := ((List.range g.players.length).filter fun i =>
        decide (i ∈ alive_before ∧ i ∉ alive_after)).map fun i =>
      Message.PlayerEliminated (g.players.getD i default)
    some (msgs ++ elimMsgs,
          { g with planets := planets2, fleets := new_fleets, queued_commands := [] })

/-- Sum of the counts of the orders already queued against a given source
planet (`game.rs` lines 212-215). -/
def queuedShipsFor (queued : List (ℕ × SendShipsCommand)) (src : ℕ) : ℕ :=
  ((queued.filter fun pc => decide (pc.2.source_planet_id = src)).map
    fun pc => pc.2.count).sum

/-- Order submission (`Game::queue_fleet`, `game.rs` lines 199-226): bounds
check on both ids, ownership check on the source, availability check against
the already-queued counts, then append.  Returned as the optional error paired
with the (possibly unchanged) state.  The `ships - queued` subtraction is
`usize` in the source and cannot underflow on reachable states (every queued
count was validated against availability and planets are untouched while
orders are queued). -/
def Game.queue_fleet (g : Game) (player_id source_planet_id destination_planet_id count : ℕ) :
    Option CouldNotSend × Game :=
  if g.planets.length ≤ source_planet_id ∨ g.planets.length ≤ destination_planet_id then
    (some CouldNotSend.NoSuchPlanet, g)
  else if (g.planets.getD source_planet_id default).owner ≠ some player_id then
    (some CouldNotSend.NotYourPlanet, g)
  else
    let planet_queued_ships := queuedShipsFor g.queued_commands source_planet_id
    let planet_remaining_ships :=
      (g.planets.getD source_planet_id default).ships - planet_queued_ships
    if planet_remaining_ships < count then
      (some CouldNotSend.NotEnoughShips, g)
    else
      (none,
       { g with queued_commands :=
          g.queued_commands ++
            [(player_id, ⟨source_planet_id, destination_planet_id, count⟩)] })

/-- Outcome of `Game::new`: the explicit `TooManyPlanets` error, a `panicked`
case for the source's `.expect(..)` calls (planet-name alphabet or position
sample exhausted), or the built game. -/
inductive NewOutcome where
  | tooManyPlanets
  | panicked
  | ok (g : Game)
deriving DecidableEq

/-- Player starting planets (`game.rs` lines 169-178): planet `id` (for
`id` ranging over the player indices) takes the `id`-th name of the fixed
alphabet and the `id`-th sampled position, with the fixed starting stats and
`owner = some id`.  `none` models the source's `.expect` panics when either
iterator runs dry. -/
def buildPlayerPlanets (sel : List (ℕ × ℕ)) : ℕ → ℕ → Option (List Planet)
  | _, 0 => some []
  | id, k + 1 => do
    let c ← PLANET_NAMES.get? id
    let pos ← sel.get? id
    let rest ← buildPlayerPlanets sel (id + 1) k
    pure ({ name := c.toString, ships := 10, strength := 40, production := 10,
            pos := pos, owner := some id } :: rest)

/-- Neutral planets (`game.rs` lines 179-188): the `j`-th neutral planet takes
the next name and position after the player planets, zero ships, a sampled
strength, a sampled production plus 5, and no owner.  The binomial draws of
the source are modelled as the injected streams `ns` and `np`. -/
def buildNeutralPlanets (sel : List (ℕ × ℕ)) (ns np : ℕ → ℕ) (base : ℕ) :
    ℕ → ℕ → Option (List Planet)
  | _, 0 => some []
  | j, k + 1 => do
    let c ← PLANET_NAMES.get? (base + j)
    let pos ← sel.get? (base + j)
    let rest ← buildNeutralPlanets sel ns np base (j + 1) k
    pure ({ name := c.toString, ships := 0, strength := ns j,
            production := np j + 5, pos := pos, owner := none } :: rest)

/-- Game construction (`Game::new`, `game.rs` lines 150-197).  The rand-crate
inputs are injected: `sel` is the without-replacement position sample drawn by
`choose_multiple` (its contract: `total_planets` distinct grid cells whenever
`total_planets ≤ w * h`), and `ns`, `np` are the binomial strength/production
draws for the neutral planets. -/
def Game.new (w h : ℕ) (players : List Player) (neutral_planets : ℕ)
    (sel : List (ℕ × ℕ)) (ns np : ℕ → ℕ) : NewOutcome :=
  let total_planets := players.length + neutral_planets
  if total_planets > w * h then
    NewOutcome.tooManyPlanets
  else
    match buildPlayerPlanets sel 0 players.length,
          buildNeutralPlanets sel ns np players.length 0 neutral_planets with
    | some a, some b =>
      NewOutcome.ok
        { planets := a ++ b, players := players, fleets := [],
          queued_commands := [], w := w, h := h }
    | _, _ => NewOutcome.panicked

/-- Number of hits of the round predicate `p` among the `n` rounds starting at
round `i`. -/
def hitCount (p : ℕ → Bool) : ℕ → ℕ → ℕ
  | _, 0 => 0
  | i, n + 1 => (if p i then 1 else 0) + hitCount p (i + 1) n

/-- Resolution predicate for the combat loop: some finite number of rounds
settles the duel. -/
def combatResolves (dstr fstr : ℕ) (rolls : ℕ → ℕ × ℕ) (fs ds : ℕ) : Prop :=
  ∃ fuel, (combatLoop dstr fstr rolls 0 fuel fs ds).isSome

/-- Concrete state for claim C1: player 0 ("Alice") owns no planet but has one
fleet three turns from arrival; player 1 ("Bob") owns the only planet. -/
def gElim : Game :=
  { planets := [{ name := "A", ships := 10, strength := 40, production := 10,
                  pos := (0, 0), owner := some 1 }],
    players := [{ name := "Alice" }, { name := "Bob" }],
    fleets := [{ ships := 5, strength := 40, turns_to_arrival := 3,
                 destination := 0, owner := 0 }],
    queued_commands := [], w := 2, h := 1 }

/-- The state `gElim.end_turn` produces: Alice's fleet survives with two turns
left, Bob's planet has produced. -/
def gElimAfter : Game :=
  { planets := [{ name := "A", ships := 20, strength := 40, production := 10,
                  pos := (0, 0), owner := some 1 }],
    players := [{ name := "Alice" }, { name := "Bob" }],
    fleets := [{ ships := 5, strength := 40, turns_to_arrival := 2,
                 destination := 0, owner := 0 }],
    queued_commands := [], w := 2, h := 1 }

/-- Concrete state for claim C3: a single planet owned by player 0 with 10
ships. -/
def gSelf : Game :=
  { planets := [{ name := "A", ships := 10, strength := 40, production := 10,
                  pos := (0, 0), owner := some 0 }],
    players := [{ name := "Alice" }],
    fleets := [], queued_commands := [], w := 1, h := 1 }

/-- `gSelf` after the same-planet order `queue_fleet 0 0 0 5` is accepted. -/
def gSelfQueued : Game :=
  { gSelf with queued_commands :=
      [(0, { source_planet_id := 0, destination_planet_id := 0, count := 5 })] }

/-- `gSelfQueued` after one `end_turn`: the order materialised into a fleet
with `turns_to_arrival = distance(A, A) = 0`, whose advancement decrement
wrapped around to `2 ^ 64 - 1`. -/
def gSelfAfter : Game :=
  { planets := [{ name := "A", ships := 15, strength := 40, production := 10,
                  pos := (0, 0), owner := some 0 }],
    players := [{ name := "Alice" }],
    fleets := [{ ships := 5, strength := 40, turns_to_arrival := 2 ^ 64 - 1,
                 destination := 0, owner := 0 }],
    queued_commands := [], w := 1, h := 1 }

/-- A quiet two-planet state used to instantiate hypothesis-bearing theorems:
two players, each owning one planet, nothing queued, nothing in flight. -/
def gQuiet : Game :=
  { planets := [{ name := "A", ships := 10, strength := 40, production := 10,
                  pos := (0, 0), owner := some 0 },
                { name := "B", ships := 10, strength := 40, production := 10,
                  pos := (1, 0), owner := some 1 }],
    players := [{ name := "Alice" }, { name := "Bob" }],
    fleets := [], queued_commands := [], w := 2, h := 1 }

/-- `gQuiet` after one `end_turn`: production only. -/
def gQuietAfter : Game :=
  { gQuiet with planets :=
      [{ name := "A", ships := 20, strength := 40, production := 10,
         pos := (0, 0), owner := some 0 },
       { name := "B", ships := 20, strength := 40, production := 10,
         pos := (1, 0), owner := some 1 }] }

/-- Twenty-seven players, for the claim-C5 counterexample. -/
def players27 : List Player := List.replicate 27 { name := "P" }

/-- Thirty distinct cells of a 6-by-5 grid, a valid `choose_multiple` sample
for the claim-C5 counterexample. -/
def sel30 : List (ℕ × ℕ) := (List.range 30).map fun i => (i % 6, i / 6)

/-- A single planet of full power 100 owned by player 0, used to instantiate
the claim-C8 theorem. -/
def fortPlanets : List Planet :=
  [{ name := "D", ships := 7, strength := 100, production := 10,
     pos := (0, 0), owner := some 0 }]

theorem wrapDec_eq_sub_one {n : ℕ} (h1 : 1 ≤ n) (h2 : n ≤ 2 ^ 64) :
    wrapDec n = n - 1 := by
  have hk : 1 ≤ 2 ^ 64 := Nat.one_le_two_pow
  unfold wrapDec
  have h3 : n + (2 ^ 64 - 1) = (n - 1) + 1 * 2 ^ 64 := by omega
  rw [h3, Nat.add_mul_mod_self_right, Nat.mod_eq_of_lt (by omega)]

theorem wrapDec_one : wrapDec 1 = 0 := by
  rw [wrapDec_eq_sub_one (by omega) Nat.one_le_two_pow]

theorem wrapDec_zero : wrapDec 0 = 2 ^ 64 - 1 := by
  have hk : 1 ≤ 2 ^ 64 := Nat.one_le_two_pow
  unfold wrapDec
  rw [Nat.zero_add, Nat.mod_eq_of_lt (by omega)]

/-- C1 (code bug): on `gElim`, `end_turn` emits `PlayerEliminated` for player 0
even though player 0's fleet survives the turn, so player 0 is a remaining
player both before and after the turn.  The source computes the after-set of
remaining players while the fleet vector is drained, so a player whose only
asset is a force still in flight after cleanup is wrongly reported
eliminated, contradicting the claim. -/
theorem C1_player_with_surviving_fleet_reported_eliminated :
    gElim.end_turn (fun _ => (0, 0)) 1 =
      some ([Message.PlayerEliminated { name := "Alice" }], gElimAfter) ∧
    0 ∈ gElimAfter.remaining_players ∧
    0 ∈ gElim.remaining_players := by decide

/-- C3 (code bug): `queue_fleet` accepts an order whose source equals its
destination (it performs no same-planet check), enqueues it, and at the next
`end_turn` the materialised fleet gets travel time `distance(A, A) = 0`, whose
advancement decrement wraps around to `2 ^ 64 - 1` (a panic in a debug
build). -/
theorem C3_same_planet_order_accepted :
    gSelf.queue_fleet 0 0 0 5 = (none, gSelfQueued) ∧
    gSelfQueued.end_turn (fun _ => (0, 0)) 1 = some ([], gSelfAfter) ∧
    gSelfAfter.fleets.map Fleet.turns_to_arrival = [2 ^ 64 - 1] := by decide

/-- C6: a fleet arriving (travel counter hits zero this turn) at a destination
already owned by its owner reinforces it: the destination's ship count grows
by the fleet's ship count, exactly one `ReinforcementsArrived` event is
emitted, no combat occurs (no random draw is consumed: the cursor is
unchanged), and the destination's owner, strength and every other planet are
untouched. -/
theorem C6_friendly_arrival_reinforces
    (rolls : ℕ → ℕ × ℕ) (fuel cursor : ℕ) (planets : List Planet) (f : Fleet)
    (htta : f.turns_to_arrival = 1)
    (hown : (planets.getD f.destination default).owner = some f.owner) :
    processFleet rolls fuel cursor planets f =
      some ({ f with turns_to_arrival := 0 },
            planets.set f.destination
              { planets.getD f.destination default with
                  ships := (planets.getD f.destination default).ships + f.ships },
            [Message.ReinforcementsArrived { f with turns_to_arrival := 0 }],
            cursor) := by
  have hown2 : (planets[f.destination]?.getD default).owner = some f.owner := by
    rw [← List.getD_eq_getElem?_getD]; exact hown
  unfold processFleet
  simp [htta, wrapDec_one, List.getD_eq_getElem?_getD, hown2]

theorem combatLoop_power100_vs_zero (rolls : ℕ → ℕ × ℕ) :
    ∀ n i ds fuel, n + 1 ≤ fuel → n + 1 < 2 ^ 64 →
      combatLoop 100 0 rolls i fuel (n + 1) ds = some ⟨false, 0, ds, i + (n + 1)⟩ := by
  intro n
  induction n with
  | zero =>
    intro i ds fuel hf _
    obtain ⟨m, rfl⟩ : ∃ m, fuel = m + 1 := ⟨fuel - 1, by omega⟩
    simp [combatLoop, Nat.mod_lt _ (by norm_num : (0:ℕ) < 100), wrapDec_one]
  | succ k ih =>
    intro i ds fuel hf hlt
    obtain ⟨m, rfl⟩ : ∃ m, fuel = m + 1 := ⟨fuel - 1, by omega⟩
    have h100 : (rolls i).1 % 100 < 100 := Nat.mod_lt _ (by norm_num)
    have hw : wrapDec (k + 1 + 1) = k + 1 := wrapDec_eq_sub_one (by omega) (by omega)
    have hrec := ih (i + 1) ds m (by omega) (by omega)
    simp [combatLoop, h100, hw, hrec]
    omega

/-- C8: a fleet of power 0 arriving at a non-friendly planet of power 100
resolves as `AttackFailed` for every sequence of random draws: the defender's
roll hits every round and the attacker's roll can never hit, so the fleet
loses exactly one ship per round until it reaches zero after `f.ships`
rounds; the planet's ships, owner and strength are unchanged. -/
theorem C8_zero_power_attacker_always_fails
    (rolls : ℕ → ℕ × ℕ) (fuel cursor : ℕ) (planets : List Planet) (f : Fleet)
    (htta : f.turns_to_arrival = 1)
    (hfstr : f.strength = 0)
    (hdstr : (planets.getD f.destination default).strength = 100)
    (hown : (planets.getD f.destination default).owner ≠ some f.owner)
    (hs : 1 ≤ f.ships) (hw : f.ships < 2 ^ 64) (hfuel : f.ships ≤ fuel) :
    processFleet rolls fuel cursor planets f =
      some ({ f with turns_to_arrival := 0, ships := 0 },
            planets.set f.destination (planets.getD f.destination default),
            [Message.AttackFailed { f with turns_to_arrival := 0, ships := 0 }],
            cursor + f.ships) := by
  obtain ⟨n, hn⟩ : ∃ n, f.ships = n + 1 := ⟨f.ships - 1, by omega⟩
  have hown2 : ¬ some f.owner = (planets[f.destination]?.getD default).owner := by
    rw [← List.getD_eq_getElem?_getD]
    exact fun h => hown h.symm
  have hdstr2 : (planets[f.destination]?.getD default).strength = 100 := by
    rw [← List.getD_eq_getElem?_getD]; exact hdstr
  have hcomb := combatLoop_power100_vs_zero rolls n cursor
    ((planets[f.destination]?.getD default).ships) fuel (by omega) (by omega)
  unfold processFleet
  simp [htta, wrapDec_one, List.getD_eq_getElem?_getD, hown2, hdstr2, hfstr, hn, hcomb]
  rw [← hdstr2]

theorem hitCount_add (p : ℕ → Bool) : ∀ m i n,
    hitCount p i (m + n) = hitCount p i m + hitCount p (i + m) n := by
  intro m
  induction m with
  | zero => intro i n; simp [hitCount]
  | succ k ih =>
    intro i n
    have h1 : k + 1 + n = (k + n) + 1 := by omega
    have h2 : i + 1 + k = i + (k + 1) := by omega
    rw [h1]
    simp only [hitCount]
    rw [ih (i + 1) n, h2, Nat.add_assoc]

theorem hitCount_pos (p : ℕ → Bool) : ∀ n i j, p j = true → i ≤ j → j < i + n →
    1 ≤ hitCount p i n := by
  intro n
  induction n with
  | zero => intro i j _ h1 h2; omega
  | succ k ih =>
    intro i j hp h1 h2
    simp only [hitCount]
    by_cases hpi : p i = true
    · simp [hpi]
    · have hij : i ≠ j := fun h => hpi (h ▸ hp)
      have h3 := ih (i + 1) j hp (by omega) (by omega)
      simp [hpi]
      omega

theorem hitCount_unbounded (p : ℕ → Bool) (H : ∀ k, ∃ j, k ≤ j ∧ p j = true) :
    ∀ m, ∃ n, m ≤ hitCount p 0 n := by
  intro m
  induction m with
  | zero => exact ⟨0, Nat.zero_le _⟩
  | succ k ihm =>
    obtain ⟨n, hn⟩ := ihm
    obtain ⟨j, hj1, hj2⟩ := H n
    refine ⟨j + 1, ?_⟩
    have hadd : hitCount p 0 (n + (j + 1 - n)) =
        hitCount p 0 n + hitCount p (0 + n) (j + 1 - n) :=
      hitCount_add p n 0 (j + 1 - n)
    have hn2 : n + (j + 1 - n) = j + 1 := by omega
    have hpos : 1 ≤ hitCount p n (j + 1 - n) :=
      hitCount_pos p (j + 1 - n) n j hj2 hj1 (by omega)
    rw [hn2] at hadd
    simp only [Nat.zero_add] at hadd
    omega

theorem combatLoop_isSome_of_defender_hits (dstr fstr : ℕ) (rolls : ℕ → ℕ × ℕ) :
    ∀ fuel i fs ds, 1 ≤ fs → fs ≤ 2 ^ 64 →
      fs ≤ hitCount (fun j => decide ((rolls j).1 % 100 < dstr)) i fuel →
      (combatLoop dstr fstr rolls i fuel fs ds).isSome = true := by
  intro fuel
  induction fuel with
  | zero => intro i fs ds h1 _ h3; simp [hitCount] at h3; omega
  | succ m ih =>
    intro i fs ds h1 h2 h3
    by_cases hd : (rolls i).1 % 100 < dstr
    · have hfs1 : wrapDec fs = fs - 1 := wrapDec_eq_sub_one h1 h2
      have h4 := h3
      simp only [hitCount, hd, decide_eq_true_eq] at h4
      rw [if_true] at h4
      by_cases hz : fs - 1 = 0
      · simp [combatLoop, hd, hfs1, hz]
      · by_cases ha : (rolls i).2 % 100 < fstr
        · by_cases hds : ds = 0
          · simp [combatLoop, hd, hfs1, hz, ha, hds]
          · have hstep : combatLoop dstr fstr rolls i (m + 1) fs ds =
                combatLoop dstr fstr rolls (i + 1) m (fs - 1) (ds - 1) := by
              simp [combatLoop, hd, hfs1, hz, ha, hds]
            rw [hstep]
            exact ih (i + 1) (fs - 1) (ds - 1) (by omega) (by omega) (by omega)
        · have hstep : combatLoop dstr fstr rolls i (m + 1) fs ds =
              combatLoop dstr fstr rolls (i + 1) m (fs - 1) ds := by
            simp [combatLoop, hd, hfs1, hz, ha]
          rw [hstep]
          exact ih (i + 1) (fs - 1) ds (by omega) (by omega) (by omega)
    · have h4 := h3
      simp only [hitCount, hd, decide_eq_true_eq] at h4
      rw [if_false] at h4
      by_cases ha : (rolls i).2 % 100 < fstr
      · by_cases hds : ds = 0
        · simp [combatLoop, hd, ha, hds]
        · have hstep : combatLoop dstr fstr rolls i (m + 1) fs ds =
              combatLoop dstr fstr rolls (i + 1) m fs (ds - 1) := by
            simp [combatLoop, hd, ha, hds]
          rw [hstep]
          exact ih (i + 1) fs (ds - 1) h1 h2 (by omega)
      · have hstep : combatLoop dstr fstr rolls i (m + 1) fs ds =
            combatLoop dstr fstr rolls (i + 1) m fs ds := by
          simp [combatLoop, hd, ha]
        rw [hstep]
        exact ih (i + 1) fs ds h1 h2 (by omega)

theorem combatLoop_isSome_of_attacker_hits (dstr fstr : ℕ) (rolls : ℕ → ℕ × ℕ) :
    ∀ fuel i fs ds, 1 ≤ fs → fs ≤ 2 ^ 64 →
      ds + 1 ≤ hitCount (fun j => decide ((rolls j).2 % 100 < fstr)) i fuel →
      (combatLoop dstr fstr rolls i fuel fs ds).isSome = true := by
  intro fuel
  induction fuel with
  | zero => intro i fs ds _ _ h3; simp [hitCount] at h3
  | succ m ih =>
    intro i fs ds h1 h2 h3
    by_cases ha : (rolls i).2 % 100 < fstr
    · have h4 := h3
      simp only [hitCount, ha, decide_eq_true_eq] at h4
      rw [if_true] at h4
      by_cases hd : (rolls i).1 % 100 < dstr
      · have hfs1 : wrapDec fs = fs - 1 := wrapDec_eq_sub_one h1 h2
        by_cases hz : fs - 1 = 0
        · simp [combatLoop, hd, hfs1, hz]
        · by_cases hds : ds = 0
          · simp [combatLoop, hd, hfs1, hz, ha, hds]
          · have hstep : combatLoop dstr fstr rolls i (m + 1) fs ds =
                combatLoop dstr fstr rolls (i + 1) m (fs - 1) (ds - 1) := by
              simp [combatLoop, hd, hfs1, hz, ha, hds]
            rw [hstep]
            exact ih (i + 1) (fs - 1) (ds - 1) (by omega) (by omega) (by omega)
      · by_cases hds : ds = 0
        · simp [combatLoop, hd, ha, hds]
        · have hstep : combatLoop dstr fstr rolls i (m + 1) fs ds =
              combatLoop dstr fstr rolls (i + 1) m fs (ds - 1) := by
            simp [combatLoop, hd, ha, hds]
          rw [hstep]
          exact ih (i + 1) fs (ds - 1) h1 h2 (by omega)
    · have h4 := h3
      simp only [hitCount, ha, decide_eq_true_eq] at h4
      rw [if_false] at h4
      by_cases hd : (rolls i).1 % 100 < dstr
      · have hfs1 : wrapDec fs = fs - 1 := wrapDec_eq_sub_one h1 h2
        by_cases hz : fs - 1 = 0
        · simp [combatLoop, hd, hfs1, hz]
        · have hstep : combatLoop dstr fstr rolls i (m + 1) fs ds =
              combatLoop dstr fstr rolls (i + 1) m (fs - 1) ds := by
            simp [combatLoop, hd, hfs1, hz, ha]
          rw [hstep]
          exact ih (i + 1) (fs - 1) ds (by omega) (by omega) (by omega)
      · have hstep : combatLoop dstr fstr rolls i (m + 1) fs ds =
            combatLoop dstr fstr rolls (i + 1) m fs ds := by
          simp [combatLoop, hd, ha]
        rw [hstep]
        exact ih (i + 1) fs ds h1 h2 (by omega)

/-- C2 (amended): the combat loop resolves, with probability 1 over the
random rolls, whenever at least one side has a positive power rating — made
precise here as: for every roll sequence in which the positive-power side's
roll succeeds infinitely often (for uniform draws an event of probability 1
exactly when that power is positive, and an impossible event when it is
zero), some finite number of rounds settles the duel with an `AttackFailed`
or `AttackSucceeded` outcome.  If both ratings are zero no roll can ever
succeed and the loop never resolves (see the counterexample). -/
theorem C2_combat_resolves_of_positive_power
    (dstr fstr fs ds : ℕ) (rolls : ℕ → ℕ × ℕ)
    (hfs : 1 ≤ fs) (hw : fs ≤ 2 ^ 64)
    (H : (∀ k, ∃ j, k ≤ j ∧ (rolls j).1 % 100 < dstr) ∨
         (∀ k, ∃ j, k ≤ j ∧ (rolls j).2 % 100 < fstr)) :
    combatResolves dstr fstr rolls fs ds := by
  rcases H with H | H
  · have H2 : ∀ k, ∃ j, k ≤ j ∧ (fun j => decide ((rolls j).1 % 100 < dstr)) j = true := by
      intro k
      obtain ⟨j, hj1, hj2⟩ := H k
      exact ⟨j, hj1, by simpa using hj2⟩
    obtain ⟨n, hn⟩ := hitCount_unbounded _ H2 fs
    exact ⟨n, combatLoop_isSome_of_defender_hits dstr fstr rolls n 0 fs ds hfs hw hn⟩
  · have H2 : ∀ k, ∃ j, k ≤ j ∧ (fun j => decide ((rolls j).2 % 100 < fstr)) j = true := by
      intro k
      obtain ⟨j, hj1, hj2⟩ := H k
      exact ⟨j, hj1, by simpa using hj2⟩
    obtain ⟨n, hn⟩ := hitCount_unbounded _ H2 (ds + 1)
    exact ⟨n, combatLoop_isSome_of_attacker_hits dstr fstr rolls n 0 fs ds hfs hw hn⟩

theorem combatLoop_zero_powers_none (rolls : ℕ → ℕ × ℕ) :
    ∀ fuel i fs ds, combatLoop 0 0 rolls i fuel fs ds = none := by
  intro fuel
  induction fuel with
  | zero => intro i fs ds; rfl
  | succ m ih => intro i fs ds; simp [combatLoop, ih]

/-- C2 (counterexample): with both power ratings zero — reachable, since a
neutral planet's strength is a `Binomial(100, 0.55)` sample that can be 0 and
a fleet copies its source planet's strength — no roll can ever succeed, so
the combat loop never resolves for any number of rounds, refuting "always
eventually resolves ... for all power ratings of the two sides including
zero". -/
theorem C2_counterexample_zero_powers :
    ¬ combatResolves 0 0 (fun _ => (0, 0)) 5 10 := by
  intro h
  obtain ⟨fuel, h⟩ := h
  rw [combatLoop_zero_powers_none (fun _ => (0, 0)) fuel 0 5 10] at h
  simp at h

/-- Witness for the amended C2 theorem at a concrete input: both sides have
the starting power 40, the fleet has 2 ships, the planet 1, and every round's
draws are (0, 0). -/
theorem C2_combat_resolves_witness :
    1 ≤ 2 ∧ combatResolves 40 40 (fun _ => (0, 0)) 2 1 :=
  ⟨by omega,
   C2_combat_resolves_of_positive_power 40 40 2 1 (fun _ => (0, 0)) (by omega)
     (by norm_num) (Or.inl fun k => ⟨k, Nat.le_refl k, by norm_num⟩)⟩

/-- C4: full contract of `queue_fleet`.  `NoSuchPlanet` is returned exactly
when the source or destination id is out of range; otherwise `NotYourPlanet`
exactly when the source planet is not owned by the submitting player;
otherwise `NotEnoughShips` exactly when the count exceeds the source's
current ship count minus the sum of the counts already queued against that
source; otherwise the call succeeds, appending exactly the submitted order to
the queue while leaving every planet unchanged; and on every error the whole
state — queue and planets — is left unchanged.  The hypothesis (queued sums
never exceed the source's ships) holds on every reachable state because each
accepted order was validated against availability and planets are untouched
while orders queue. -/
theorem C4_queue_fleet_contract (g : Game) (player src dst count : ℕ)
    (hq : queuedShipsFor g.queued_commands src ≤ (g.planets.getD src default).ships) :
    ((g.queue_fleet player src dst count).1 = some CouldNotSend.NoSuchPlanet ↔
      g.planets.length ≤ src ∨ g.planets.length ≤ dst) ∧
    (src < g.planets.length → dst < g.planets.length →
      ((g.queue_fleet player src dst count).1 = some CouldNotSend.NotYourPlanet ↔
        (g.planets.getD src default).owner ≠ some player)) ∧
    (src < g.planets.length → dst < g.planets.length →
      (g.planets.getD src default).owner = some player →
      ((g.queue_fleet player src dst count).1 = some CouldNotSend.NotEnoughShips ↔
        (g.planets.getD src default).ships <
          queuedShipsFor g.queued_commands src + count)) ∧
    (src < g.planets.length → dst < g.planets.length →
      (g.planets.getD src default).owner = some player →
      ¬ (g.planets.getD src default).ships <
          queuedShipsFor g.queued_commands src + count →
      (g.queue_fleet player src dst count).1 = none) ∧
    ((g.queue_fleet player src dst count).1 = none →
      (g.queue_fleet player src dst count).2 =
        { g with queued_commands := g.queued_commands ++
            [(player, { source_planet_id := src, destination_planet_id := dst,
                        count := count })] }) ∧
    (∀ e, (g.queue_fleet player src dst count).1 = some e →
      (g.queue_fleet player src dst count).2 = g) := by
  unfold Game.queue_fleet
  dsimp only
  split_ifs with h1 h2 h3
  · exact ⟨iff_of_true rfl h1,
      fun hs hd => absurd h1 (by omega),
      fun hs hd _ => absurd h1 (by omega),
      fun hs hd _ _ => absurd h1 (by omega),
      fun h => absurd h (by simp),
      fun e _ => rfl⟩
  · exact ⟨iff_of_false (by simp) h1,
      fun _ _ => iff_of_true rfl h2,
      fun _ _ hown => absurd hown h2,
      fun _ _ hown _ => absurd hown h2,
      fun h => absurd h (by simp),
      fun e _ => rfl⟩
  · exact ⟨iff_of_false (by simp) h1,
      fun _ _ => iff_of_false (by simp) h2,
      fun _ _ _ => iff_of_true rfl (by omega),
      fun _ _ _ hlt => absurd (show (g.planets.getD src default).ships <
        queuedShipsFor g.queued_commands src + count by omega) hlt,
      fun h => absurd h (by simp),
      fun e _ => rfl⟩
  · exact ⟨iff_of_false (by simp) h1,
      fun _ _ => iff_of_false (by simp) h2,
      fun _ _ _ => iff_of_false (by simp) (by omega),
      fun _ _ _ _ => rfl,
      fun _ => rfl,
      fun e h => absurd h (by simp)⟩

/-- Witness for the C4 contract on the quiet two-planet state: sending 5 of
Alice's 10 ships from planet 0 to planet 1 succeeds. -/
theorem C4_queue_fleet_contract_witness :
    queuedShipsFor gQuiet.queued_commands 0 ≤ (gQuiet.planets.getD 0 default).ships ∧
    (gQuiet.queue_fleet 0 0 1 5).1 = none :=
  ⟨by decide,
   (C4_queue_fleet_contract gQuiet 0 0 1 5 (by decide)).2.2.2.1
     (by decide) (by decide) (by decide) (by decide)⟩

theorem buildPlayerPlanets_spec (sel : List (ℕ × ℕ)) :
    ∀ k id, id + k ≤ 26 → id + k ≤ sel.length →
      ∃ l, buildPlayerPlanets sel id k = some l ∧
        l.length = k ∧
        l.map Planet.pos = (sel.drop id).take k ∧
        ∀ j, j < k →
          (l.getD j default).ships = 10 ∧
          (l.getD j default).strength = 40 ∧
          (l.getD j default).production = 10 ∧
          (l.getD j default).owner = some (id + j) := by
  intro k
  induction k with
  | zero =>
    intro id h26 hlen
    exact ⟨[], rfl, rfl, by simp, fun j hj => absurd hj (by omega)⟩
  | succ m ih =>
    intro id h26 hlen
    have hid26 : id < PLANET_NAMES.length := by
      have h : PLANET_NAMES.length = 26 := by decide
      omega
    have hidsel : id < sel.length := by omega
    obtain ⟨rest, hrest, hlen2, hmap, hget⟩ := ih (id + 1) (by omega) (by omega)
    refine ⟨{ name := PLANET_NAMES[id].toString, ships := 10, strength := 40,
              production := 10, pos := sel[id], owner := some id } :: rest,
            ?_, ?_, ?_, ?_⟩
    · simp [buildPlayerPlanets, List.getElem?_eq_getElem hid26,
        List.getElem?_eq_getElem hidsel, hrest]
    · simp [hlen2]
    · rw [List.map_cons, hmap, List.drop_eq_getElem_cons hidsel, List.take_succ_cons]
    · intro j hj
      match j with
      | 0 => exact ⟨rfl, rfl, rfl, rfl⟩
      | j + 1 =>
        have hh := hget j (by omega)
        have harith : id + 1 + j = id + (j + 1) := by omega
        rw [harith] at hh
        simpa using hh

/-- C5 (amended): `Game::new` fails with `TooManyPlanets` exactly when
`players.length + neutral_planets > w * h`; and for `neutral_planets = 0` and
any player count within both the grid bound *and the 26-letter planet-name
alphabet*, it returns a game with exactly one planet per player, each with 10
ships, strength 40, production 10, owned by the corresponding distinct player
id, and placed on distinct grid cells (given the `choose_multiple` contract:
a distinct sample with at least one position per planet).  For more than 26
planets the source panics on the exhausted name alphabet instead (see the
counterexample), which is what forces the added bound. -/
theorem C5_new_contract (w h : ℕ) (players : List Player) (neutral_planets : ℕ)
    (sel : List (ℕ × ℕ)) (ns np : ℕ → ℕ) :
    (Game.new w h players neutral_planets sel ns np = NewOutcome.tooManyPlanets ↔
      w * h < players.length + neutral_planets) ∧
    (neutral_planets = 0 → players.length ≤ w * h → players.length ≤ 26 →
      players.length ≤ sel.length → sel.Nodup →
      ∃ g, Game.new w h players neutral_planets sel ns np = NewOutcome.ok g ∧
        g.planets.length = players.length ∧
        g.players = players ∧ g.fleets = [] ∧ g.queued_commands = [] ∧
        (∀ i, i < players.length →
          (g.planets.getD i default).ships = 10 ∧
          (g.planets.getD i default).strength = 40 ∧
          (g.planets.getD i default).production = 10 ∧
          (g.planets.getD i default).owner = some i) ∧
        (g.planets.map Planet.pos).Nodup) := by
  constructor
  · unfold Game.new
    dsimp only
    split_ifs with hc
    · exact iff_of_true rfl (by omega)
    · rcases hb : buildPlayerPlanets sel 0 players.length with _ | l <;>
        rcases hb2 : buildNeutralPlanets sel ns np players.length 0 neutral_planets
          with _ | l2 <;>
        exact iff_of_false (by simp) (by omega)
  · intro hn0 hcap h26 hsel hnodup
    subst hn0
    obtain ⟨l, hl, hlen, hmap, hget⟩ :=
      buildPlayerPlanets_spec sel players.length 0 (by omega) (by omega)
    simp only [Nat.zero_add] at hl hlen hmap hget
    have hnew : Game.new w h players 0 sel ns np = NewOutcome.ok
        { planets := l ++ [], players := players, fleets := [], queued_commands := [],
          w := w, h := h } := by
      unfold Game.new
      dsimp only
      rw [if_neg (by omega), hl]
      exact rfl
    refine ⟨_, hnew, ?_, rfl, rfl, rfl, ?_, ?_⟩
    · simpa using hlen
    · intro i hi
      have hh := hget i (by omega)
      simpa using hh
    · have hpos : (l.map Planet.pos).Nodup := by
        rw [hmap]
        exact ((sel.drop 0).take_sublist players.length).nodup (by simpa using hnodup)
      simpa using hpos

/-- C5 (counterexample): 27 players on a 6-by-5 grid (30 cells, so within the
grid bound) with 0 neutral planets and a valid 30-cell position sample:
`Game::new` panics when the 26-letter name alphabet runs dry (`expect("Ran
out of planet names!")`) instead of returning a 27-planet game. -/
theorem C5_counterexample_27_players :
    Game.new 6 5 players27 0 sel30 (fun _ => 0) (fun _ => 0) =
      NewOutcome.panicked := by decide

/-- Witness for the amended C5 contract: two players on a 2-by-1 grid. -/
theorem C5_new_contract_witness :
    ∃ g, Game.new 2 1 [{ name := "Alice" }, { name := "Bob" }] 0 [(0, 0), (1, 0)]
        (fun _ => 0) (fun _ => 0) = NewOutcome.ok g ∧
      g.planets.length = 2 ∧
      g.players = [{ name := "Alice" }, { name := "Bob" }] ∧
      g.fleets = [] ∧ g.queued_commands = [] ∧
      (∀ i, i < 2 →
        (g.planets.getD i default).ships = 10 ∧
        (g.planets.getD i default).strength = 40 ∧
        (g.planets.getD i default).production = 10 ∧
        (g.planets.getD i default).owner = some i) ∧
      (g.planets.map Planet.pos).Nodup :=
  (C5_new_contract 2 1 [{ name := "Alice" }, { name := "Bob" }] 0 [(0, 0), (1, 0)]
    (fun _ => 0) (fun _ => 0)).2 rfl (by decide) (by decide) (by decide) (by decide)

/-- C10: `queue_fleet` accepts a zero-count order — the availability check
`remaining < count` can never fire for `count = 0` — which materialises into
a fleet with zero ships; and in the combat loop's defender-fire branch the
fleet's ship count is decremented without first checking that it is positive,
so for a zero-ship fleet a defender hit wraps the count around to
`2 ^ 64 - 1` (unsigned underflow; a panic in a debug build) and the round
continues with the underflowed count instead of resolving normally. -/
theorem C10_zero_count_order_underflows_in_combat
    (g : Game) (player src dst : ℕ)
    (h1 : src < g.planets.length) (h2 : dst < g.planets.length)
    (h3 : (g.planets.getD src default).owner = some player)
    (dstr fstr ds i fuel : ℕ) (rolls : ℕ → ℕ × ℕ)
    (hhit : (rolls i).1 % 100 < dstr) (hmiss : ¬ (rolls i).2 % 100 < fstr) :
    (g.queue_fleet player src dst 0).1 = none ∧
    (materialize g.planets [(player, ⟨src, dst, 0⟩)]).2.map Fleet.ships = [0] ∧
    combatLoop dstr fstr rolls i (fuel + 1) 0 ds =
      combatLoop dstr fstr rolls (i + 1) fuel (2 ^ 64 - 1) ds := by
  refine ⟨?_, ?_, ?_⟩
  · unfold Game.queue_fleet
    dsimp only
    rw [if_neg (by omega), if_neg (fun hne => hne h3), if_neg (by omega)]
  · simp [materialize]
  · have hplus : (2 : ℕ) ^ 64 - 1 ≠ 0 := by norm_num
    simp [combatLoop, hhit, hmiss, wrapDec_zero, hplus]

/-- Witness for C10: on the quiet two-planet state a zero-count order from
Alice's planet 0 to planet 1 is accepted, materialises with zero ships, and a
round with a sure defender hit against the zero-ship fleet underflows. -/
theorem C10_zero_count_order_witness :
    (gQuiet.queue_fleet 0 0 1 0).1 = none ∧
    (materialize gQuiet.planets [(0, ⟨0, 1, 0⟩)]).2.map Fleet.ships = [0] ∧
    combatLoop 100 0 (fun _ => (0, 0)) 0 (0 + 1) 0 5 =
      combatLoop 100 0 (fun _ => (0, 0)) (0 + 1) 0 (2 ^ 64 - 1) 5 :=
  C10_zero_count_order_underflows_in_combat gQuiet 0 0 1 (by decide) (by decide)
    (by decide) 100 0 5 0 0 (fun _ => (0, 0)) (by decide) (by decide)

theorem getD_owner_mem {ps : List Planet} {i x : ℕ}
    (h : (ps.getD i default).owner = some x) : ∃ p ∈ ps, p.owner = some x := by
  by_cases hi : i < ps.length
  · rw [List.getD_eq_getElem?_getD, List.getElem?_eq_getElem hi] at h
    exact ⟨ps[i], List.getElem_mem hi, h⟩
  · rw [List.getD_eq_default _ _ (by omega)] at h
    rw [show (default : Planet).owner = none from rfl] at h
    exact absurd h (by simp)

theorem production_owner {x : ℕ} {ps : List Planet}
    (h : ∃ p ∈ ps.map (fun p =>
        if p.owner ≠ none then { p with ships := p.ships + p.production } else p),
      p.owner = some x) :
    ∃ p ∈ ps, p.owner = some x := by
  obtain ⟨p, hp, ho⟩ := h
  obtain ⟨q, hq, he⟩ := List.mem_map.mp hp
  refine ⟨q, hq, ?_⟩
  have howner : ((if q.owner ≠ none then
      { q with ships := q.ships + q.production } else q) : Planet).owner = q.owner := by
    split <;> rfl
  rw [← he, howner] at ho
  exact ho

theorem materialize_planets_owner {x : ℕ} :
    ∀ cmds ps, (∃ p ∈ (materialize ps cmds).1, p.owner = some x) →
      ∃ p ∈ ps, p.owner = some x := by
  intro cmds
  induction cmds with
  | nil => intro ps h; simpa [materialize] using h
  | cons pc rest ih =>
    intro ps h
    obtain ⟨player, cmd⟩ := pc
    have h2 : ∃ p ∈ (materialize (ps.set cmd.source_planet_id
        { ps.getD cmd.source_planet_id default with
            ships := (ps.getD cmd.source_planet_id default).ships - cmd.count }) rest).1,
        p.owner = some x := by
      simpa [materialize] using h
    obtain ⟨p, hp, ho⟩ := ih _ h2
    rcases List.mem_or_eq_of_mem_set hp with hm | hm
    · exact ⟨p, hm, ho⟩
    · subst hm
      exact getD_owner_mem ho

theorem materialize_fleet_owner :
    ∀ cmds (ps : List Planet) (f : Fleet), f ∈ (materialize ps cmds).2 →
      ∃ pc ∈ cmds, Prod.fst pc = f.owner := by
  intro cmds
  induction cmds with
  | nil => intro ps f h; simp [materialize] at h
  | cons pc rest ih =>
    intro ps f h
    obtain ⟨player, cmd⟩ := pc
    rw [materialize] at h
    dsimp only at h
    rcases List.mem_cons.mp h with h2 | h2
    · exact ⟨(player, cmd), List.mem_cons_self _ _, by rw [h2]⟩
    · obtain ⟨pc2, hpc2, he⟩ := ih _ f h2
      exact ⟨pc2, List.mem_cons_of_mem _ hpc2, he⟩

theorem mem_remainingPlayersOf {x : ℕ} {ps : List Planet} {fs : List Fleet} :
    x ∈ remainingPlayersOf ps fs ↔
      (∃ p ∈ ps, p.owner = some x) ∨ ∃ f ∈ fs, f.owner = x := by
  simp [remainingPlayersOf]

theorem processFleet_owner {rolls : ℕ → ℕ × ℕ} {fuel cursor : ℕ} {planets : List Planet}
    {f f1 : Fleet} {planets1 : List Planet} {msgs : List Message} {cursor1 : ℕ}
    (h : processFleet rolls fuel cursor planets f = some (f1, planets1, msgs, cursor1)) :
    f1.owner = f.owner ∧
    ∀ x, (∃ p ∈ planets1, p.owner = some x) →
      (∃ p ∈ planets, p.owner = some x) ∨ x = f.owner := by
  unfold processFleet at h
  dsimp only at h
  by_cases ht : wrapDec f.turns_to_arrival = 0
  · rw [if_pos ht] at h
    by_cases hfr : some f.owner = (planets.getD f.destination default).owner
    · rw [if_pos hfr] at h
      rw [Option.some.injEq, Prod.mk.injEq, Prod.mk.injEq, Prod.mk.injEq] at h
      obtain ⟨he1, he2, he3, he4⟩ := h
      subst he1
      subst he2
      refine ⟨rfl, fun x hx => ?_⟩
      obtain ⟨p, hp, ho⟩ := hx
      rcases List.mem_or_eq_of_mem_set hp with hm | hm
      · exact Or.inl ⟨p, hm, ho⟩
      · subst hm
        exact Or.inl (getD_owner_mem ho)
    · rw [if_neg hfr] at h
      rcases hc : combatLoop (planets.getD f.destination default).strength f.strength
          rolls cursor fuel f.ships (planets.getD f.destination default).ships
        with _ | r
      · rw [hc] at h; exact absurd h (by simp)
      · rw [hc] at h
        dsimp only at h
        rw [Option.some.injEq, Prod.mk.injEq, Prod.mk.injEq, Prod.mk.injEq] at h
        obtain ⟨he1, he2, he3, he4⟩ := h
        subst he1
        subst he2
        refine ⟨rfl, fun x hx => ?_⟩
        obtain ⟨p, hp, ho⟩ := hx
        rcases List.mem_or_eq_of_mem_set hp with hm | hm
        · exact Or.inl ⟨p, hm, ho⟩
        · subst hm
          by_cases hw : r.attackerWon
          · rw [if_pos hw] at ho
            exact Or.inr (Option.some.inj ho).symm
          · rw [if_neg hw] at ho
            exact Or.inl (getD_owner_mem ho)
  · rw [if_neg ht] at h
    rw [Option.some.injEq, Prod.mk.injEq, Prod.mk.injEq, Prod.mk.injEq] at h
    obtain ⟨he1, he2, he3, he4⟩ := h
    subst he1
    subst he2
    exact ⟨rfl, fun x hx => Or.inl hx⟩

theorem processFleets_owner {rolls : ℕ → ℕ × ℕ} {fuel : ℕ} :
    ∀ (fleetsIn : List Fleet) (cursor : ℕ) (planets : List Planet)
      (fleets1 : List Fleet) (planets1 : List Planet) (msgs : List Message) (cursor1 : ℕ),
      processFleets rolls fuel fleetsIn cursor planets =
        some (fleets1, planets1, msgs, cursor1) →
      (∀ x, (∃ p ∈ planets1, p.owner = some x) →
         (∃ p ∈ planets, p.owner = some x) ∨ ∃ g ∈ fleetsIn, Fleet.owner g = x) ∧
      (∀ g ∈ fleets1, ∃ g2 ∈ fleetsIn, Fleet.owner g2 = Fleet.owner g) := by
  intro fleetsIn
  induction fleetsIn with
  | nil =>
    intro cursor planets fleets1 planets1 msgs cursor1 h
    rw [processFleets] at h
    rw [Option.some.injEq, Prod.mk.injEq, Prod.mk.injEq, Prod.mk.injEq] at h
    obtain ⟨he1, he2, he3, he4⟩ := h
    subst he1
    subst he2
    exact ⟨fun x hx => Or.inl hx, by simp⟩
  | cons f rest ih =>
    intro cursor planets fleets1 planets1 msgs cursor1 h
    rw [processFleets] at h
    rcases hpf : processFleet rolls fuel cursor planets f
      with _ | ⟨fA, planetsA, msgsA, cursorA⟩
    · rw [hpf] at h; exact absurd h (by simp)
    · rw [hpf, Option.some_bind] at h
      dsimp only at h
      rcases hrest : processFleets rolls fuel rest cursorA planetsA
        with _ | ⟨fleetsB, planetsB, msgsB, cursorB⟩
      · rw [hrest] at h; exact absurd h (by simp)
      · rw [hrest, Option.some_bind] at h
        dsimp only at h
        rw [Option.some.injEq, Prod.mk.injEq, Prod.mk.injEq, Prod.mk.injEq] at h
        obtain ⟨he1, he2, he3, he4⟩ := h
        obtain ⟨hpfo, hpfp⟩ := processFleet_owner hpf
        obtain ⟨ihp, ihf⟩ := ih cursorA planetsA fleetsB planetsB msgsB cursorB hrest
        subst he2
        constructor
        · intro x hx
          rcases ihp x hx with hA | hA
          · rcases hpfp x hA with hB | hB
            · exact Or.inl hB
            · exact Or.inr ⟨f, List.mem_cons_self _ _, hB.symm⟩
          · obtain ⟨g2, hg2, hgo⟩ := hA
            exact Or.inr ⟨g2, List.mem_cons_of_mem _ hg2, hgo⟩
        · intro g hg
          rw [← he1] at hg
          rcases List.mem_cons.mp hg with hgg | hgg
          · subst hgg
            exact ⟨f, List.mem_cons_self _ _, hpfo.symm⟩
          · obtain ⟨g2, hg2, he⟩ := ihf g hgg
            exact ⟨g2, List.mem_cons_of_mem _ hg2, he⟩

/-- C7: a single `end_turn` never adds a remaining player: the set of
remaining players after the call is a subset of the set before it.  The
hypothesis — every queued order's player owns its source planet — is an
invariant of every reachable state, because `queue_fleet` validates ownership
at submission and ownership only changes inside `end_turn`, which drains the
queue first. -/
theorem C7_remaining_players_never_grows (g : Game) (rolls : ℕ → ℕ × ℕ) (fuel : ℕ)
    (msgs : List Message) (g1 : Game)
    (hq : ∀ pc ∈ g.queued_commands, ∃ p ∈ g.planets, p.owner = some (Prod.fst pc))
    (h : g.end_turn rolls fuel = some (msgs, g1)) :
    g1.remaining_players ⊆ g.remaining_players := by
  unfold Game.end_turn at h
  dsimp only at h
  rcases hpf : processFleets rolls fuel
      (g.fleets ++ (materialize (g.planets.map fun p =>
        if p.owner ≠ none then { p with ships := p.ships + p.production } else p)
        g.queued_commands).2) 0
      (materialize (g.planets.map fun p =>
        if p.owner ≠ none then { p with ships := p.ships + p.production } else p)
        g.queued_commands).1
    with _ | ⟨fleets1, planets2, msgsA, cursorA⟩
  · rw [hpf] at h; exact absurd h (by simp)
  · rw [hpf] at h
    dsimp only at h
    rw [Option.some.injEq, Prod.mk.injEq] at h
    obtain ⟨hmsg, hg1⟩ := h
    intro x hx
    rw [← hg1] at hx
    rw [Game.remaining_players] at hx
    dsimp only at hx
    rw [mem_remainingPlayersOf] at hx
    rw [Game.remaining_players, mem_remainingPlayersOf]
    obtain ⟨ihp, ihf⟩ := processFleets_owner _ _ _ _ _ _ _ hpf
    rcases hx with hA | hA
    · rcases ihp x hA with hB | hB
      · exact Or.inl (production_owner (materialize_planets_owner _ _ hB))
      · obtain ⟨fl, hfl, hflo⟩ := hB
        rcases List.mem_append.mp hfl with hm2 | hm2
        · exact Or.inr ⟨fl, hm2, hflo⟩
        · obtain ⟨pc, hpc, hpco⟩ := materialize_fleet_owner _ _ _ hm2
          obtain ⟨p, hp, hpo⟩ := hq pc hpc
          refine Or.inl ⟨p, hp, ?_⟩
          rw [hpo, hpco, hflo]
    · obtain ⟨fl, hfl, hflo⟩ := hA
      have hfl2 : fl ∈ fleets1 := List.mem_of_mem_filter hfl
      obtain ⟨g2, hg2, hg2o⟩ := ihf fl hfl2
      rcases List.mem_append.mp hg2 with hm2 | hm2
      · refine Or.inr ⟨g2, hm2, ?_⟩
        rw [hg2o, hflo]
      · obtain ⟨pc, hpc, hpco⟩ := materialize_fleet_owner _ _ _ hm2
        obtain ⟨p, hp, hpo⟩ := hq pc hpc
        refine Or.inl ⟨p, hp, ?_⟩
        rw [hpo, hpco, hg2o, hflo]

/-- Witness for C7 on the quiet two-planet state: one turn of pure
production. -/
theorem C7_remaining_players_witness :
    (∀ pc ∈ gQuiet.queued_commands, ∃ p ∈ gQuiet.planets, p.owner = some (Prod.fst pc)) ∧
    gQuietAfter.remaining_players ⊆ gQuiet.remaining_players :=
  ⟨by decide, C7_remaining_players_never_grows gQuiet (fun _ => (0, 0)) 1 [] gQuietAfter
    (by decide) (by decide)⟩

/-- Witness for C6: a 5-ship fleet owned by Bob arriving at Bob's own planet 1
of the quiet two-planet state. -/
theorem C6_friendly_arrival_witness :
    (gQuiet.planets.getD 1 default).owner = some 1 ∧
    processFleet (fun _ => (0, 0)) 1 0 gQuiet.planets
        { ships := 5, strength := 40, turns_to_arrival := 1, destination := 1, owner := 1 } =
      some ({ ships := 5, strength := 40, turns_to_arrival := 0, destination := 1, owner := 1 },
            gQuiet.planets.set 1
              { gQuiet.planets.getD 1 default with
                  ships := (gQuiet.planets.getD 1 default).ships + 5 },
            [Message.ReinforcementsArrived
              { ships := 5, strength := 40, turns_to_arrival := 0, destination := 1, owner := 1 }],
            0) :=
  ⟨by decide, C6_friendly_arrival_reinforces (fun _ => (0, 0)) 1 0 gQuiet.planets
    { ships := 5, strength := 40, turns_to_arrival := 1, destination := 1, owner := 1 }
    rfl (by decide)⟩

/-- Witness for C8: a 3-ship power-0 fleet owned by player 1 attacking the
power-100 planet owned by player 0. -/
theorem C8_zero_power_attacker_witness :
    (fortPlanets.getD 0 default).strength = 100 ∧
    processFleet (fun _ => (0, 0)) 3 0 fortPlanets
        { ships := 3, strength := 0, turns_to_arrival := 1, destination := 0, owner := 1 } =
      some ({ ships := 0, strength := 0, turns_to_arrival := 0, destination := 0, owner := 1 },
            fortPlanets.set 0 (fortPlanets.getD 0 default),
            [Message.AttackFailed
              { ships := 0, strength := 0, turns_to_arrival := 0, destination := 0, owner := 1 }],
            0 + 3) :=
  ⟨by decide, C8_zero_power_attacker_always_fails (fun _ => (0, 0)) 3 0 fortPlanets
    { ships := 3, strength := 0, turns_to_arrival := 1, destination := 0, owner := 1 }
    rfl rfl (by decide) (by decide) (by decide) (by decide) (by decide)⟩
